import Mathlib

/-!
# cert-manager-webhook-coredns: key construction, validation and record lifecycle

A shallow embedding of `main.go`.

* Go strings are Lean `String`s. The only characters the program inspects
  (`.`, `/`, `,`) are ASCII, so splitting and prefix tests at the code-point
  level agree with Go's byte-level ones on every valid UTF-8 text.
* A Go `error` is its message; `nil` is `none`.
* The standard-library functions the program calls (`strings.Split`,
  `strings.Join`, the verb `%q`, `json.Marshal` of a `TXTRecord`) are written
  out after their Go definitions; `json.Unmarshal` and the Unicode table of
  `strconv.IsPrint` are fields of `Runtime`.
* The Kubernetes API is the `client` field of the solver, etcd is a `Store`
  together with a `World` that says whether a connection and an operation
  succeed. Every call to either service is recorded as a `Call`.
-/

namespace CoreDNS

/-! ## `strings.Split`, `strings.Join` and the in-place `reverse` -/

/-- Go `strings.Split(s, sep)` for a one-character separator, on the characters
of `s`: the text before the first separator, then the split of the rest; a text
without separator is returned whole (so the result is never empty). -/
def splitChars (sep : Char) : List Char → List (List Char)
  | [] => [[]]
  | c :: cs =>
    if c = sep then [] :: splitChars sep cs
    else
      match splitChars sep cs with
      | [] => [[c]]
      | h :: t => (c :: h) :: t

/-- Go `strings.Split(s, sep)` with `sep` a single character. -/
def Split (s : String) (sep : Char) : List String :=
  (splitChars sep s.data).map String.mk

/-- Go `strings.Join(elems, sep)`: the first element, then for each further
element the separator and that element; the empty slice gives `""`. -/
def Join : List String → String → String
  | [], _ => ""
  | a :: rest, sep => rest.foldl (fun b s => b ++ sep ++ s) a

/-- The parallel assignment `slice[i], slice[j] = slice[j], slice[i]`; outside
the bounds (where Go would panic) the slice is left alone. -/
def swap {α : Type} (slice : List α) (i j : Nat) : List α :=
  match slice[i]?, slice[j]? with
  | some a, some b => (slice.set i b).set j a
  | _, _ => slice

/-- The loop of `reverse`, started at counter `i`:
`for ; i < len(slice)/2; i++ { j := len(slice) - i - 1; swap }`.
`fuel` bounds the number of iterations. -/
def reverseLoop {α : Type} : Nat → List α → Nat → List α
  | 0, slice, _ => slice
  | fuel + 1, slice, i =>
    if i < slice.length / 2 then
      reverseLoop fuel (swap slice i (slice.length - i - 1)) (i + 1)
    else slice

/-- The function `reverse(slice []string)` of `main.go`; the loop runs at most
`len(slice)/2` times, so `len(slice)` is enough fuel. -/
def reverse {α : Type} (slice : List α) : List α :=
  reverseLoop slice.length slice 0

/-- The function `etcdKeyFor(prefix, dnsName, key string) string`. -/
def etcdKeyFor (pfx dnsName key : String) : String :=
  let domains := Split dnsName '.'
  let domains := reverse domains
  pfx ++ Join domains "/" ++ "/" ++ key

/-! ## Errors and configuration -/

/-- A Go `error` value, identified with its message; Go's `nil` error is
`none : Option Error`. -/
abbrev Error := String

/-- The fields of `corev1.SecretKeySelector` the program reads. -/
structure SecretKeySelector where
  Name : String
  Key : String
deriving DecidableEq

/-- The struct `corednsProviderConfig`. -/
structure corednsProviderConfig where
  CoreDNSPrefix : String
  EtcdEndpoints : String
  EtcdUsernameRef : SecretKeySelector
  EtcdPasswordRef : SecretKeySelector
deriving DecidableEq

/-- The zero value `corednsProviderConfig{}`. -/
def zeroConfig : corednsProviderConfig :=
  { CoreDNSPrefix := "", EtcdEndpoints := "",
    EtcdUsernameRef := { Name := "", Key := "" },
    EtcdPasswordRef := { Name := "", Key := "" } }

/-- The function `validateConfig(cfg *corednsProviderConfig) error`. -/
def validateConfig (cfg : corednsProviderConfig) : Option Error :=
  if cfg.CoreDNSPrefix = "" then some "no `CoreDNSPrefix` provided"
  else if cfg.EtcdEndpoints = "" then some "no `EtcdEndpoints` provided"
  else if cfg.EtcdUsernameRef.Name = "" then some "no `EtcdUsernameRef` secret provided"
  else if cfg.EtcdPasswordRef.Name = "" then some "no `EtcdPasswordRef` secret provided"
  else none

/-- The library behaviour `main.go` relies on without defining it. -/
structure Runtime where
  /-- The call `json.Unmarshal(raw, &cfg)`: the struct after decoding, and the error. -/
  Unmarshal : String → corednsProviderConfig → corednsProviderConfig × Option Error
  /-- The table of `strconv.IsPrint` for runes above U+00FF. -/
  isPrintTable : Char → Bool

/-- The type `extapi.JSON`. -/
structure JSON where
  Raw : String
deriving DecidableEq

/-- The function `loadConfig(cfgJSON *extapi.JSON) (corednsProviderConfig, error)`. -/
def loadConfig (rt : Runtime) (cfgJSON : Option JSON) : corednsProviderConfig × Option Error :=
  let cfg := zeroConfig
  match cfgJSON with
  | none => (cfg, none)
  | some j =>
    match rt.Unmarshal j.Raw cfg with
    | (cfg, some err) => (cfg, some ("error decoding solver config: " ++ err))
    | (cfg, none) => (cfg, none)

/-! ## `fmt`'s `%q` (`strconv.Quote`) -/

/-- The digit table `lowerhex` of `strconv`, read at `n` (always below 16). -/
def lowerhex (n : Nat) : Char :=
  "0123456789abcdef".data.getD n '0'

/-- The function `strconv.IsPrint`: Latin-1 is decided in place, the rest by
the table. -/
def IsPrint (rt : Runtime) (r : Char) : Bool :=
  if r.toNat ≤ 0xFF then
    if 0x20 ≤ r.toNat ∧ r.toNat < 0x7F then true
    else if 0xA1 ≤ r.toNat then r.toNat != 0xAD
    else false
  else rt.isPrintTable r

/-- The function `appendEscapedRune` of `strconv` for the quote `"`, neither
ASCII-only nor graphic-only: what one rune contributes to the quoted text. -/
def appendEscapedRune (rt : Runtime) (r : Char) : List Char :=
  if r = '\x22' ∨ r = '\\' then ['\\', r]
  else if IsPrint rt r then [r]
  else if r = '\x07' then ['\\', 'a']
  else if r = '\x08' then ['\\', 'b']
  else if r = '\x0c' then ['\\', 'f']
  else if r = '\n' then ['\\', 'n']
  else if r = '\r' then ['\\', 'r']
  else if r = '\t' then ['\\', 't']
  else if r = '\x0b' then ['\\', 'v']
  else if r.toNat < 0x20 ∨ r.toNat = 0x7f then
    ['\\', 'x', lowerhex (r.toNat % 256 / 16), lowerhex (r.toNat % 256 % 16)]
  else if r.toNat < 0x10000 then
    '\\' :: 'u' :: [12, 8, 4, 0].map (fun s => lowerhex (r.toNat / 2 ^ s % 16))
  else
    '\\' :: 'U' :: [28, 24, 20, 16, 12, 8, 4, 0].map (fun s => lowerhex (r.toNat / 2 ^ s % 16))

/-- The function `strconv.Quote`, which renders the verb `%q` of a string: a
double quote, every rune escaped, a double quote. -/
def Quote (rt : Runtime) (s : String) : String :=
  String.mk ('\x22' :: (s.data.flatMap (appendEscapedRune rt) ++ ['\x22']))

/-- The text of the error `secret` builds with
`fmt.Errorf("key not found %q in secret '%s/%s'", ref.Key, namespace, ref.Name)`. -/
def keyNotFound (rt : Runtime) (key nspace name : String) : Error :=
  "key not found " ++ Quote rt key ++ " in secret '" ++ nspace ++ "/" ++ name ++ "'"

/-! ## Secrets -/

/-- The data of a `corev1.Secret`: the map `Data` from key to bytes. -/
structure Secret where
  Data : List (String × String)
deriving DecidableEq

/-- An interaction with a service outside the process. -/
inductive Call where
  | secretGet (nspace name : String)
  | etcdNew (endpoints : List String) (username password : String)
  | etcdPut (key value : String)
  | etcdDeletePrefix (key : String)
  | etcdClose
deriving DecidableEq

/-- The struct `corednsProviderSolver`: its `client`, seen as what
`client.CoreV1().Secrets(namespace).Get(ctx, name, ...)` answers. -/
structure corednsProviderSolver where
  client : String → String → Except Error Secret

/-- The method `secret(ref, namespace) (string, error)`, with the calls made. -/
def secret (rt : Runtime) (c : corednsProviderSolver) (ref : SecretKeySelector)
    (nspace : String) : (String × Option Error) × List Call :=
  if ref.Name = "" then (("", none), [])
  else
    match c.client nspace ref.Name with
    | .error err => (("", some err), [.secretGet nspace ref.Name])
    | .ok secret =>
      match secret.Data.lookup ref.Key with
      | none =>
        (("", some (keyNotFound rt ref.Key nspace ref.Name)), [.secretGet nspace ref.Name])
      | some bytes => ((bytes, none), [.secretGet nspace ref.Name])

/-! ## `json.Marshal` of a `TXTRecord` -/

/-- The struct `TXTRecord`; `TTL` is a `uint32`. -/
structure TXTRecord where
  Text : String
  TTL : Nat
deriving DecidableEq

/-- The value of a member of the encoded object. -/
inductive JValue where
  | str (s : String)
  | num (n : Nat)
deriving DecidableEq

/-- The members `json.Marshal` emits for a `TXTRecord`, in field order: both
tags carry `omitempty`, so an empty `Text` and a zero `TTL` are left out. -/
def TXTRecord.members (r : TXTRecord) : List (String × JValue) :=
  (if r.Text = "" then [] else [("text", JValue.str r.Text)]) ++
    (if r.TTL = 0 then [] else [("ttl", JValue.num r.TTL)])

/-- The set `htmlSafeSet` of `encoding/json`: the ASCII characters from space
on, without the double quote, the backslash, `<`, `>` and `&`. -/
def htmlSafe (b : Char) : Bool :=
  0x20 ≤ b.toNat && b.toNat < 0x80 && b != '\x22' && b != '\\' && b != '<' && b != '>'
    && b != '&'

/-- What one character contributes in `appendString` of `encoding/json` with
HTML escaping on (the default of `json.Marshal`). The short forms for
backspace and form feed are those of Go 1.22 and later; older releases write
them as `\u0008` and `\u000c`. -/
def encodeChar (c : Char) : List Char :=
  if c.toNat < 0x80 then
    if htmlSafe c then [c]
    else if c = '\\' ∨ c = '\x22' then ['\\', c]
    else if c = '\x08' then ['\\', 'b']
    else if c = '\x0c' then ['\\', 'f']
    else if c = '\n' then ['\\', 'n']
    else if c = '\r' then ['\\', 'r']
    else if c = '\t' then ['\\', 't']
    else ['\\', 'u', '0', '0', lowerhex (c.toNat / 16), lowerhex (c.toNat % 16)]
  else if c.toNat = 0x2028 ∨ c.toNat = 0x2029 then
    ['\\', 'u', '2', '0', '2', lowerhex (c.toNat % 16)]
  else [c]

/-- The JSON text of a string value. -/
def encodeString (s : String) : String :=
  String.mk ('\x22' :: (s.data.flatMap encodeChar ++ ['\x22']))

/-- The JSON text of a member value; a `uint32` is written in decimal. -/
def encodeValue : JValue → String
  | .str s => encodeString s
  | .num n => toString n

/-- The JSON text of an object: `{`, the members as `"name":value` separated
by commas, `}`. -/
def encodeObject (ms : List (String × JValue)) : String :=
  "\x7b" ++ Join (ms.map (fun m => "\"" ++ m.1 ++ "\":" ++ encodeValue m.2)) "," ++ "\x7d"

/-- The call `json.Marshal(TXTRecord{...})`; it cannot fail on this struct. -/
def Marshal (r : TXTRecord) : String :=
  encodeObject r.members

/-! ## The etcd key space -/

/-- The contents of etcd: the value stored at each key, if any. -/
abbrev Store := String → Option String

/-- The effect of `Put(ctx, key, val)`: the key now holds `val`. -/
def Store.put (st : Store) (key val : String) : Store :=
  fun k => if k = key then some val else st k

/-- Whether `key` starts with `p`, as etcd's `WithPrefix` range reads it. -/
def hasPrefix (key p : String) : Bool :=
  p.data.isPrefixOf key.data

/-- The effect of `Delete(ctx, key, WithPrefix())`: every key that starts with
`key` is removed. -/
def Store.deletePrefix (st : Store) (key : String) : Store :=
  fun k => if hasPrefix k key then none else st k

/-- The services a call talks to, besides the Kubernetes client. -/
structure World where
  /-- The call `etcdcv3.New(config)`: `nil`, or why no client could be made. -/
  dial : List String → String → String → Option Error
  /-- The outcome of the one `Put` or `Delete` within its five seconds: `nil`
  when etcd applied it, the error when it did not. -/
  rpc : Option Error

/-- The fields of `v1alpha1.ChallengeRequest` the program reads. -/
structure ChallengeRequest where
  ResolvedFQDN : String
  Key : String
  ResourceNamespace : String
  Config : Option JSON
deriving DecidableEq

/-- The fields of `etcdcv3.Config` the program sets. -/
structure EtcdConfig where
  Endpoints : List String
  Username : String
  Password : String
deriving DecidableEq

/-- The method `NewETCDConfig(cfg, ch) (*etcdcv3.Config, error)`, with the
calls made. -/
def NewETCDConfig (rt : Runtime) (c : corednsProviderSolver) (cfg : corednsProviderConfig)
    (ch : ChallengeRequest) : (Option EtcdConfig × Option Error) × List Call :=
  let etcdURLs := Split cfg.EtcdEndpoints ','
  match secret rt c cfg.EtcdUsernameRef ch.ResourceNamespace with
  | ((_, some err), calls) => ((none, some err), calls)
  | ((etcdUsername, none), calls) =>
    match secret rt c cfg.EtcdPasswordRef ch.ResourceNamespace with
    | ((_, some err), calls2) => ((none, some err), calls ++ calls2)
    | ((etcdPassword, none), calls2) =>
      ((some { Endpoints := etcdURLs, Username := etcdUsername, Password := etcdPassword },
        none), calls ++ calls2)

/-- The method `NewEtcdClient(cfg, ch) (*etcdcv3.Client, error)`, with the
calls made; the client is represented by the configuration it was made from. -/
def NewEtcdClient (rt : Runtime) (c : corednsProviderSolver) (w : World)
    (cfg : corednsProviderConfig) (ch : ChallengeRequest) :
    (Option EtcdConfig × Option Error) × List Call :=
  match NewETCDConfig rt c cfg ch with
  | ((_, some err), calls) => ((none, some err), calls)
  | ((none, none), calls) => ((none, none), calls)
  | ((some etcdClientConfig, none), calls) =>
    let call := Call.etcdNew etcdClientConfig.Endpoints etcdClientConfig.Username
      etcdClientConfig.Password
    match w.dial etcdClientConfig.Endpoints etcdClientConfig.Username
      etcdClientConfig.Password with
    | some err => ((none, some err), calls ++ [call])
    | none => ((some etcdClientConfig, none), calls ++ [call])

/-- What a call of `Present` or `CleanUp` leaves behind: the error returned,
the contents of etcd, and the calls made, in order. -/
structure Outcome where
  err : Option Error
  store : Store
  calls : List Call

/-- The method `Present(ch *v1alpha1.ChallengeRequest) error` (the two
`fmt.Println` lines write to standard output only). A failed `Put` is taken to
leave etcd as it was. -/
def Present (rt : Runtime) (c : corednsProviderSolver) (w : World) (ch : ChallengeRequest)
    (st : Store) : Outcome :=
  match loadConfig rt ch.Config with
  | (_, some err) => { err := some err, store := st, calls := [] }
  | (cfg, none) =>
    match validateConfig cfg with
    | some err => { err := some err, store := st, calls := [] }
    | none =>
      match NewEtcdClient rt c w cfg ch with
      | ((_, some err), calls) => { err := some err, store := st, calls := calls }
      | ((_, none), calls) =>
        let value := Marshal { Text := ch.Key, TTL := 60 % 2 ^ 32 }
        let key := etcdKeyFor cfg.CoreDNSPrefix ch.ResolvedFQDN ch.Key
        match w.rpc with
        | some err =>
          { err := some err, store := st,
            calls := calls ++ [Call.etcdPut key value, Call.etcdClose] }
        | none =>
          { err := none, store := st.put key value,
            calls := calls ++ [Call.etcdPut key value, Call.etcdClose] }

/-- The method `CleanUp(ch *v1alpha1.ChallengeRequest) error`. A failed
`Delete` is taken to leave etcd as it was. -/
def CleanUp (rt : Runtime) (c : corednsProviderSolver) (w : World) (ch : ChallengeRequest)
    (st : Store) : Outcome :=
  match loadConfig rt ch.Config with
  | (_, some err) => { err := some err, store := st, calls := [] }
  | (cfg, none) =>
    match validateConfig cfg with
    | some err => { err := some err, store := st, calls := [] }
    | none =>
      match NewEtcdClient rt c w cfg ch with
      | ((_, some err), calls) => { err := some err, store := st, calls := calls }
      | ((_, none), calls) =>
        let key := etcdKeyFor cfg.CoreDNSPrefix ch.ResolvedFQDN ch.Key
        match w.rpc with
        | some err =>
          { err := some err, store := st,
            calls := calls ++ [Call.etcdDeletePrefix key, Call.etcdClose] }
        | none =>
          { err := none, store := st.deletePrefix key,
            calls := calls ++ [Call.etcdDeletePrefix key, Call.etcdClose] }

/-! ## A concrete setting -/

/-- The configuration of the end-to-end scenario. -/
def exampleConfig : corednsProviderConfig :=
  { CoreDNSPrefix := "/dns/", EtcdEndpoints := "http://store:2379",
    EtcdUsernameRef := { Name := "c", Key := "u" },
    EtcdPasswordRef := { Name := "c", Key := "p" } }

/-- The JSON text of `exampleConfig`. -/
def exampleRaw : String :=
  "\x7b\"coreDNSPrefix\":\"/dns/\",\"etcdEndpoints\":\"http://store:2379\","
    ++ "\"etcdUsernameRef\":\x7b\"name\":\"c\",\"key\":\"u\"\x7d,"
    ++ "\"etcdPasswordRef\":\x7b\"name\":\"c\",\"key\":\"p\"\x7d\x7d"

/-- A runtime whose decoder reads `exampleRaw` as `exampleConfig` and rejects
every other text; no rune above U+00FF counts as printable. -/
def exampleRuntime : Runtime :=
  { Unmarshal := fun raw cfg =>
      if raw = exampleRaw then (exampleConfig, none)
      else (cfg, some "unexpected end of JSON input"),
    isPrintTable := fun _ => false }

/-- A solver whose cluster holds, in every namespace, the one secret `c` with
the entries `u` and `p`. -/
def exampleSolver : corednsProviderSolver :=
  { client := fun _ name =>
      if name = "c" then Except.ok { Data := [("u", "user"), ("p", "pass")] }
      else Except.error "secret not found" }

/-- An etcd that accepts the connection and applies the operation. -/
def exampleWorld : World :=
  { dial := fun _ _ _ => none, rpc := none }

/-- The request of the end-to-end scenario, for a given token. -/
def exampleRequest (token : String) : ChallengeRequest :=
  { ResolvedFQDN := "_acme-challenge.example.com", Key := token,
    ResourceNamespace := "default", Config := some { Raw := exampleRaw } }

/-- An etcd without any key. -/
def emptyStore : Store :=
  fun _ => none

/-! ## Supporting lemmas -/

theorem swap_length {α : Type} (s : List α) (i j : Nat) : (swap s i j).length = s.length := by
  unfold swap
  split <;> simp

theorem swap_getElem? {α : Type} (s : List α) (i j k : Nat) (hi : i < s.length)
    (hj : j < s.length) :
    (swap s i j)[k]? = if k = j then s[i]? else if k = i then s[j]? else s[k]? := by
  unfold swap
  rw [List.getElem?_eq_getElem hi, List.getElem?_eq_getElem hj]
  simp only [List.getElem?_set, List.length_set]
  by_cases h1 : k = j
  · subst h1; simp [hj]
  · by_cases h2 : k = i
    · subst h2; simp [hi, h1, Ne.symm h1]
    · simp [h1, h2, Ne.symm h1, Ne.symm h2]

theorem reverseLoop_spec {α : Type} (orig : List α) :
    ∀ (fuel : Nat) (s : List α) (i : Nat), s.length = orig.length →
      orig.length / 2 ≤ i + fuel → i ≤ orig.length / 2 →
      (∀ k, s[k]? = if k < i ∨ orig.length - i ≤ k then orig.reverse[k]? else orig[k]?) →
      reverseLoop fuel s i = orig.reverse := by
  have stop : ∀ (s : List α) (i : Nat), orig.length / 2 ≤ i → i ≤ orig.length / 2 →
      (∀ k, s[k]? = if k < i ∨ orig.length - i ≤ k then orig.reverse[k]? else orig[k]?) →
      s = orig.reverse := by
    intro s i h1 h2 inv
    apply List.ext_getElem?
    intro k
    rw [inv k]
    split
    · rfl
    · rename_i hk
      have hk1 : k < orig.length := by omega
      rw [List.getElem?_reverse hk1]
      congr 1
      omega
  intro fuel
  induction fuel with
  | zero =>
    intro s i _ h1 h2 inv
    simp only [reverseLoop]
    exact stop s i (by omega) h2 inv
  | succ fuel ih =>
    intro s i hlen h1 h2 inv
    simp only [reverseLoop]
    split
    · rename_i hlt
      rw [hlen] at hlt
      apply ih
      · rw [swap_length, hlen]
      · omega
      · omega
      · intro k
        rw [swap_getElem? s i _ k (by omega) (by omega), hlen]
        by_cases hkj : k = orig.length - i - 1
        · rw [if_pos hkj, inv i, if_neg (by omega), if_pos (by omega)]
          rw [List.getElem?_reverse (by omega)]
          congr 1
          omega
        · rw [if_neg hkj]
          by_cases hki : k = i
          · rw [if_pos hki, inv, if_neg (by omega), if_pos (by omega)]
            rw [List.getElem?_reverse (by omega)]
            congr 1
            omega
          · rw [if_neg hki, inv k]
            by_cases hc : k < i ∨ orig.length - i ≤ k
            · rw [if_pos hc, if_pos (by omega)]
            · rw [if_neg hc, if_neg (by omega)]
    · rename_i hge
      rw [hlen] at hge
      exact stop s i (by omega) h2 inv

theorem reverse_eq {α : Type} (l : List α) : reverse l = l.reverse := by
  unfold reverse
  apply reverseLoop_spec l l.length l 0 rfl (by omega) (by omega)
  intro k
  by_cases hk : l.length ≤ k
  · rw [if_pos (by omega)]
    rw [List.getElem?_eq_none hk, List.getElem?_eq_none (by simpa using hk)]
  · rw [if_neg (by omega)]

theorem splitChars_eq_splitOn (sep : Char) (l : List Char) :
    splitChars sep l = l.splitOn sep := by
  induction l with
  | nil => rfl
  | cons c cs ih =>
    rw [List.splitOn, List.splitOnP_cons, ← List.splitOn, ← ih]
    simp only [splitChars, beq_iff_eq]
    split
    · rfl
    · cases h : splitChars sep cs with
      | nil => rw [ih] at h; exact absurd h (List.splitOnP_ne_nil _ _)
      | cons a t => rfl

theorem splitChars_ne_nil (sep : Char) (l : List Char) : splitChars sep l ≠ [] := by
  rw [splitChars_eq_splitOn]
  exact List.splitOnP_ne_nil _ _

theorem mem_of_mem_splitChars (sep : Char) :
    ∀ (l : List Char) (x : List Char), x ∈ splitChars sep l → ∀ c ∈ x, c ∈ l := by
  intro l
  induction l with
  | nil =>
    intro x hx c hc
    simp only [splitChars, List.mem_singleton] at hx
    subst hx
    exact hc
  | cons d ds ih =>
    intro x hx c hc
    simp only [splitChars] at hx
    split at hx
    · rcases List.mem_cons.1 hx with h | h
      · subst h; exact absurd hc (List.not_mem_nil c)
      · exact List.mem_cons_of_mem _ (ih x h c hc)
    · cases hs : splitChars sep ds with
      | nil => exact absurd hs (splitChars_ne_nil sep ds)
      | cons a t =>
        rw [hs] at hx ih
        rcases List.mem_cons.1 hx with h | h
        · subst h
          rcases List.mem_cons.1 hc with h' | h'
          · subst h'; exact List.mem_cons_self _ _
          · exact List.mem_cons_of_mem _ (ih a (List.mem_cons_self _ _) c h')
        · exact List.mem_cons_of_mem _ (ih x (List.mem_cons_of_mem _ h) c hc)

theorem Join_eq_intercalate (l : List String) (sep : String) :
    Join l sep = sep.intercalate l := by
  have go : ∀ (as : List String) (acc : String),
      String.intercalate.go acc sep as = as.foldl (fun b s => b ++ sep ++ s) acc := by
    intro as
    induction as with
    | nil => intro acc; rfl
    | cons a as ih => intro acc; simp only [String.intercalate.go, List.foldl_cons, ih]
  cases l with
  | nil => rfl
  | cons a rest => simp only [Join, String.intercalate, go]

theorem foldl_append_data (sep : String) :
    ∀ (rest : List String) (a : String),
      (rest.foldl (fun b s => b ++ sep ++ s) a).data =
        a.data ++ (rest.map (fun s => sep.data ++ s.data)).flatten := by
  intro rest
  induction rest with
  | nil => intro a; simp
  | cons b rest ih =>
    intro a
    simp only [List.foldl_cons, ih, String.data_append, List.map_cons, List.flatten_cons,
      List.append_assoc]

theorem intercalate_cons {α : Type} (sep : List α) :
    ∀ (rest : List (List α)) (a : List α),
      List.intercalate sep (a :: rest) = a ++ (rest.map (fun s => sep ++ s)).flatten := by
  intro rest
  induction rest with
  | nil => intro a; simp [List.intercalate]
  | cons b rest ih =>
    intro a
    have := ih b
    simp only [List.intercalate] at this ⊢
    simp only [List.intersperse_cons₂, List.flatten_cons, this, List.map_cons,
      List.append_assoc]

theorem Join_data (l : List String) (sep : String) (hl : l ≠ []) :
    (Join l sep).data = List.intercalate sep.data (l.map String.data) := by
  cases l with
  | nil => exact absurd rfl hl
  | cons a rest =>
    simp only [Join, foldl_append_data, List.map_cons, intercalate_cons, List.map_map]
    rfl

theorem first_sep_unique {α : Type} (c : α) :
    ∀ (u u' v v' : List α), c ∉ u → c ∉ u' → u ++ c :: v = u' ++ c :: v' →
      u = u' ∧ v = v' := by
  intro u
  induction u with
  | nil =>
    intro u' v v' _ hu' h
    cases u' with
    | nil => exact ⟨rfl, by simpa using h⟩
    | cons y ys =>
      simp only [List.nil_append, List.cons_append, List.cons.injEq] at h
      exact absurd (h.1 ▸ List.mem_cons_self _ _) hu'
  | cons x xs ih =>
    intro u' v v' hu hu' h
    cases u' with
    | nil =>
      simp only [List.nil_append, List.cons_append, List.cons.injEq] at h
      exact absurd (h.1 ▸ List.mem_cons_self _ _) hu
    | cons y ys =>
      simp only [List.cons_append, List.cons.injEq] at h
      obtain ⟨h1, h2⟩ := ih ys v v' (fun m => hu (List.mem_cons_of_mem _ m))
        (fun m => hu' (List.mem_cons_of_mem _ m)) h.2
      exact ⟨by rw [h.1, h1], h2⟩

theorem last_sep_unique {α : Type} (c : α) (a a' t t' : List α) (ht : c ∉ t) (ht' : c ∉ t')
    (h : a ++ c :: t = a' ++ c :: t') : a = a' ∧ t = t' := by
  have hr := congrArg List.reverse h
  simp only [List.reverse_append, List.reverse_cons, List.append_assoc,
    List.singleton_append] at hr
  obtain ⟨h1, h2⟩ := first_sep_unique c t.reverse t'.reverse a.reverse a'.reverse
    (by simpa using ht) (by simpa using ht') hr
  exact ⟨List.reverse_injective h2, List.reverse_injective h1⟩

/-- The characters of a key: prefix, reversed labels joined by `/`, `/`, token. -/
theorem etcdKeyFor_data (pfx dnsName key : String) :
    (etcdKeyFor pfx dnsName key).data =
      pfx.data ++ (List.intercalate ['/'] (splitChars '.' dnsName.data).reverse
        ++ '/' :: key.data) := by
  have hne : reverse (Split dnsName '.') ≠ [] := by
    rw [reverse_eq, Split]
    simp [splitChars_ne_nil]
  simp only [etcdKeyFor, String.data_append, List.append_assoc, Join_data _ _ hne]
  rw [reverse_eq, Split, List.map_reverse, List.map_map]
  have : (String.data ∘ String.mk) = id := rfl
  rw [this, List.map_id]
  rfl

theorem labels_injective (f1 f2 : List Char) (h1 : '/' ∉ f1) (h2 : '/' ∉ f2)
    (h : List.intercalate ['/'] (splitChars '.' f1).reverse =
      List.intercalate ['/'] (splitChars '.' f2).reverse) : f1 = f2 := by
  have key : ∀ f : List Char, '/' ∉ f →
      (List.intercalate ['/'] (splitChars '.' f).reverse).splitOn '/' =
        (splitChars '.' f).reverse := by
    intro f hf
    apply List.splitOn_intercalate
    · intro l hl hc
      exact hf (mem_of_mem_splitChars '.' f l (List.mem_reverse.1 hl) _ hc)
    · simpa using splitChars_ne_nil '.' f
  have hrev : (splitChars '.' f1).reverse = (splitChars '.' f2).reverse := by
    rw [← key f1 h1, ← key f2 h2, h]
  have hs := List.reverse_injective hrev
  rw [splitChars_eq_splitOn, splitChars_eq_splitOn] at hs
  rw [← List.intercalate_splitOn f1 '.', ← List.intercalate_splitOn f2 '.', hs]

theorem Present_ok (rt : Runtime) (c : corednsProviderSolver) (w : World)
    (ch : ChallengeRequest) (st : Store) (hok : (Present rt c w ch st).err = none) :
    (loadConfig rt ch.Config).2 = none ∧ validateConfig (loadConfig rt ch.Config).1 = none
      ∧ (Present rt c w ch st).store =
        st.put (etcdKeyFor (loadConfig rt ch.Config).1.CoreDNSPrefix ch.ResolvedFQDN ch.Key)
          (Marshal { Text := ch.Key, TTL := 60 % 2 ^ 32 }) := by
  unfold Present at hok ⊢
  rcases hl : loadConfig rt ch.Config with ⟨cfg, _ | e⟩
  · rcases hv : validateConfig cfg with _ | e
    · rcases hn : NewEtcdClient rt c w cfg ch with ⟨⟨cl, _ | e⟩, calls⟩
      · rcases hr : w.rpc with _ | e
        · simp only [hl, hv, hn, hr] at hok ⊢
          exact ⟨trivial, trivial, trivial⟩
        · simp [hl, hv, hn, hr] at hok
      · simp [hl, hv, hn] at hok
    · simp [hl, hv] at hok
  · simp [hl] at hok

theorem CleanUp_ok (rt : Runtime) (c : corednsProviderSolver) (w : World)
    (ch : ChallengeRequest) (st : Store) (hok : (CleanUp rt c w ch st).err = none) :
    (loadConfig rt ch.Config).2 = none ∧ validateConfig (loadConfig rt ch.Config).1 = none
      ∧ (CleanUp rt c w ch st).store =
        st.deletePrefix
          (etcdKeyFor (loadConfig rt ch.Config).1.CoreDNSPrefix ch.ResolvedFQDN ch.Key) := by
  unfold CleanUp at hok ⊢
  rcases hl : loadConfig rt ch.Config with ⟨cfg, _ | e⟩
  · rcases hv : validateConfig cfg with _ | e
    · rcases hn : NewEtcdClient rt c w cfg ch with ⟨⟨cl, _ | e⟩, calls⟩
      · rcases hr : w.rpc with _ | e
        · simp only [hl, hv, hn, hr] at hok ⊢
          exact ⟨trivial, trivial, trivial⟩
        · simp [hl, hv, hn, hr] at hok
      · simp [hl, hv, hn] at hok
    · simp [hl, hv] at hok
  · simp [hl] at hok

/-- Whether a call fails does not depend on what etcd holds. -/
theorem CleanUp_err_store (rt : Runtime) (c : corednsProviderSolver) (w : World)
    (ch : ChallengeRequest) (st st' : Store) :
    (CleanUp rt c w ch st').err = (CleanUp rt c w ch st).err := by
  unfold CleanUp
  rcases hl : loadConfig rt ch.Config with ⟨cfg, _ | e⟩
  · rcases hv : validateConfig cfg with _ | e
    · rcases hn : NewEtcdClient rt c w cfg ch with ⟨⟨cl, _ | e⟩, calls⟩
      · rcases hr : w.rpc with _ | e <;> simp only [hl, hv, hn, hr]
      · simp only [hl, hv, hn]
    · simp only [hl, hv]
  · simp only [hl]

theorem put_put (st : Store) (key val : String) : (st.put key val).put key val = st.put key val := by
  funext k
  simp only [Store.put]
  split <;> rfl

theorem deletePrefix_deletePrefix (st : Store) (key : String) :
    (st.deletePrefix key).deletePrefix key = st.deletePrefix key := by
  funext k
  simp only [Store.deletePrefix]
  split <;> rfl

/-! ## The claims about `etcdKeyFor` -/

/-- C1: the key is the prefix, then the labels of the name (its split at `.`)
in reversed order joined by `/`, then `/` and the token; for the name
`a.b.example.com` under `/skydns/` it is `/skydns/com/example/b/a/` followed by
the token. -/
theorem etcdKeyFor_spec (pfx fqdn token : String) :
    etcdKeyFor pfx fqdn token =
        pfx ++ "/".intercalate ((fqdn.data.splitOn '.').map String.mk).reverse ++ "/" ++ token
      ∧ etcdKeyFor "/skydns/" "a.b.example.com" token = "/skydns/com/example/b/a/" ++ token := by
  constructor
  · simp only [etcdKeyFor, reverse_eq, Join_eq_intercalate, Split, splitChars_eq_splitOn]
  · have h : "/skydns/" ++ Join (reverse (Split "a.b.example.com" '.')) "/" ++ "/"
        = "/skydns/com/example/b/a/" := by decide
    simp only [etcdKeyFor, h]

/-- C2, as stated, fails: a token holding `/` and a longer name give one key. -/
theorem etcdKeyFor_collision :
    etcdKeyFor "/skydns/" "a" "b/c" = etcdKeyFor "/skydns/" "b.a" "c"
      ∧ ¬ (("a" : String) = "b.a" ∧ ("b/c" : String) = "c") := by
  decide

/-- C2, amended: for a fixed prefix the key determines the name and the token
as long as neither name nor token holds the character `/`. -/
theorem etcdKeyFor_injective_noslash (pfx fqdn1 token1 fqdn2 token2 : String)
    (hf1 : '/' ∉ fqdn1.data) (ht1 : '/' ∉ token1.data)
    (hf2 : '/' ∉ fqdn2.data) (ht2 : '/' ∉ token2.data)
    (h : etcdKeyFor pfx fqdn1 token1 = etcdKeyFor pfx fqdn2 token2) :
    fqdn1 = fqdn2 ∧ token1 = token2 := by
  have hd := congrArg String.data h
  rw [etcdKeyFor_data, etcdKeyFor_data] at hd
  obtain ⟨hj, ht⟩ := last_sep_unique '/' _ _ _ _ ht1 ht2 (List.append_cancel_left hd)
  exact ⟨String.ext (labels_injective _ _ hf1 hf2 hj), String.ext ht⟩

/-- The amended C2 at the name `_acme-challenge.example.com` and a token. -/
theorem etcdKeyFor_injective_noslash_witness :
    '/' ∉ "_acme-challenge.example.com".data ∧ '/' ∉ "tok123".data
      ∧ etcdKeyFor "/dns/" "_acme-challenge.example.com" "tok123"
        = etcdKeyFor "/dns/" "_acme-challenge.example.com" "tok123"
      ∧ (("_acme-challenge.example.com" : String) = "_acme-challenge.example.com"
        ∧ ("tok123" : String) = "tok123") :=
  ⟨by decide, by decide, rfl,
    etcdKeyFor_injective_noslash "/dns/" "_acme-challenge.example.com" "tok123"
      "_acme-challenge.example.com" "tok123" (by decide) (by decide) (by decide) (by decide)
      rfl⟩

/-- C4, as stated, fails: the empty label of a trailing dot does not end up
next to the token. -/
theorem trailing_dot_literal_differs :
    etcdKeyFor "/dns/" "example.com." "tok123" ≠ "/dns/com/example//" ++ "tok123" := by
  decide

/-- C4, amended: for the name `example.com.` under `/dns/` the key is
`/dns//com/example/` followed by the token: the empty label comes first, right
after the prefix. -/
theorem etcdKeyFor_trailing_dot (token : String) :
    etcdKeyFor "/dns/" "example.com." token = "/dns//com/example/" ++ token := by
  have h : "/dns/" ++ Join (reverse (Split "example.com." '.')) "/" ++ "/"
      = "/dns//com/example/" := by decide
  simp only [etcdKeyFor, h]

/-! ## The claims about `validateConfig` -/

/-- C5: `validateConfig` returns no error exactly when the four required
fields are all non-empty. -/
theorem validateConfig_ok_iff (cfg : corednsProviderConfig) :
    validateConfig cfg = none ↔
      (cfg.CoreDNSPrefix ≠ "" ∧ cfg.EtcdEndpoints ≠ "" ∧ cfg.EtcdUsernameRef.Name ≠ ""
        ∧ cfg.EtcdPasswordRef.Name ≠ "") := by
  unfold validateConfig
  constructor
  · intro h
    split_ifs at h with h1 h2 h3 h4
    exact ⟨h1, h2, h3, h4⟩
  · rintro ⟨h1, h2, h3, h4⟩
    simp only [h1, h2, h3, h4, if_false]

/-- C6: the error is that of the first empty field in the order
`CoreDNSPrefix`, `EtcdEndpoints`, `EtcdUsernameRef.Name`, `EtcdPasswordRef.Name`
(none when no field is empty); the four messages differ from each other and
each holds the name of its field. -/
theorem validateConfig_first_empty (cfg : corednsProviderConfig) :
    validateConfig cfg =
        ([(cfg.CoreDNSPrefix, "no `CoreDNSPrefix` provided"),
          (cfg.EtcdEndpoints, "no `EtcdEndpoints` provided"),
          (cfg.EtcdUsernameRef.Name, "no `EtcdUsernameRef` secret provided"),
          (cfg.EtcdPasswordRef.Name, "no `EtcdPasswordRef` secret provided")].find?
            (fun field => field.1 = "")).map (fun field => field.2)
      ∧ ["no `CoreDNSPrefix` provided", "no `EtcdEndpoints` provided",
          "no `EtcdUsernameRef` secret provided", "no `EtcdPasswordRef` secret provided"].Nodup
      ∧ "CoreDNSPrefix".data <:+: "no `CoreDNSPrefix` provided".data
      ∧ "EtcdEndpoints".data <:+: "no `EtcdEndpoints` provided".data
      ∧ "EtcdUsernameRef".data <:+: "no `EtcdUsernameRef` secret provided".data
      ∧ "EtcdPasswordRef".data <:+: "no `EtcdPasswordRef` secret provided".data := by
  refine ⟨?_, by decide, by decide, by decide, by decide, by decide⟩
  unfold validateConfig
  by_cases h1 : cfg.CoreDNSPrefix = ""
  · simp [List.find?, h1]
  · by_cases h2 : cfg.EtcdEndpoints = ""
    · simp [List.find?, h1, h2]
    · by_cases h3 : cfg.EtcdUsernameRef.Name = ""
      · simp [List.find?, h1, h2, h3]
      · by_cases h4 : cfg.EtcdPasswordRef.Name = ""
        · simp [List.find?, h1, h2, h3, h4]
        · simp [List.find?, h1, h2, h3, h4]

/-! ## The claims about `secret` -/

theorem flatMap_singleton {α : Type} (f : α → List α) :
    ∀ l : List α, (∀ a ∈ l, f a = [a]) → l.flatMap f = l := by
  intro l
  induction l with
  | nil => intro _; rfl
  | cons a l ih =>
    intro h
    rw [List.flatMap_cons, h a (List.mem_cons_self _ _),
      ih (fun b hb => h b (List.mem_cons_of_mem _ hb))]
    rfl

theorem key_infix_Quote (rt : Runtime) (key : String)
    (h : ∀ r ∈ key.data, r ≠ '\x22' ∧ r ≠ '\\' ∧ IsPrint rt r = true) :
    key.data <:+: (Quote rt key).data := by
  have he : ∀ r ∈ key.data, appendEscapedRune rt r = [r] := by
    intro r hr
    obtain ⟨h1, h2, h3⟩ := h r hr
    simp [appendEscapedRune, h1, h2, h3]
  refine ⟨['\x22'], ['\x22'], ?_⟩
  simp [Quote, flatMap_singleton _ _ he]

/-- C7, as stated, fails: `%q` escapes the double quote inside the key, so the
message no longer holds the key itself. -/
theorem secret_message_escapes_key :
    (secret exampleRuntime exampleSolver { Name := "c", Key := "a\"b" } "default").1
        = ("", some "key not found \"a\\\"b\" in secret 'default/c'")
      ∧ ¬ ("a\"b".data <:+: "key not found \"a\\\"b\" in secret 'default/c'".data) := by
  decide

/-- C7, amended: with an empty `ref.Name` the result is `""` and no error and
no call is made; otherwise one lookup of `(namespace, ref.Name)` is made, and a
failed lookup returns its error, a secret without the entry `ref.Key` returns
the error `key not found <ref.Key as %q writes it> in secret
'<namespace>/<ref.Name>'`, which holds the quoted key, `ref.Name` and the
namespace, and holds `ref.Key` itself when each of its characters is printable
and neither a double quote nor a backslash, and an entry that exists is returned
as a string with no error. -/
theorem secret_spec (rt : Runtime) (c : corednsProviderSolver) (ref : SecretKeySelector)
    (nspace : String) :
    (ref.Name = "" → secret rt c ref nspace = (("", none), []))
      ∧ (ref.Name ≠ "" → ∀ err, c.client nspace ref.Name = Except.error err →
          secret rt c ref nspace = (("", some err), [Call.secretGet nspace ref.Name]))
      ∧ (ref.Name ≠ "" → ∀ s, c.client nspace ref.Name = Except.ok s →
          s.Data.lookup ref.Key = none →
          secret rt c ref nspace =
              (("", some (keyNotFound rt ref.Key nspace ref.Name)),
                [Call.secretGet nspace ref.Name])
            ∧ keyNotFound rt ref.Key nspace ref.Name =
              "key not found " ++ Quote rt ref.Key ++ " in secret '" ++ nspace ++ "/"
                ++ ref.Name ++ "'"
            ∧ (Quote rt ref.Key).data <:+: (keyNotFound rt ref.Key nspace ref.Name).data
            ∧ ref.Name.data <:+: (keyNotFound rt ref.Key nspace ref.Name).data
            ∧ nspace.data <:+: (keyNotFound rt ref.Key nspace ref.Name).data
            ∧ ((∀ r ∈ ref.Key.data, r ≠ '\x22' ∧ r ≠ '\\' ∧ IsPrint rt r = true) →
                ref.Key.data <:+: (keyNotFound rt ref.Key nspace ref.Name).data))
      ∧ (ref.Name ≠ "" → ∀ s bytes, c.client nspace ref.Name = Except.ok s →
          s.Data.lookup ref.Key = some bytes →
          secret rt c ref nspace = ((bytes, none), [Call.secretGet nspace ref.Name])) := by
  have hq : (Quote rt ref.Key).data <:+: (keyNotFound rt ref.Key nspace ref.Name).data :=
    ⟨"key not found ".data, (" in secret '" ++ nspace ++ "/" ++ ref.Name ++ "'").data, by
      simp [keyNotFound, String.data_append, List.append_assoc]⟩
  refine ⟨?_, ?_, ?_, ?_⟩
  · intro h
    simp only [secret, h, if_true]
  · intro h err he
    simp only [secret, h, if_false, he]
  · intro h s hs hl
    refine ⟨?_, rfl, hq, ?_, ?_, ?_⟩
    · simp only [secret, h, if_false, hs, hl]
    · exact ⟨("key not found " ++ Quote rt ref.Key ++ " in secret '" ++ nspace ++ "/").data,
        "'".data, by simp [keyNotFound, String.data_append, List.append_assoc]⟩
    · exact ⟨("key not found " ++ Quote rt ref.Key ++ " in secret '").data,
        ("/" ++ ref.Name ++ "'").data, by
          simp [keyNotFound, String.data_append, List.append_assoc]⟩
    · intro hk
      exact List.IsInfix.trans (key_infix_Quote rt ref.Key hk) hq
  · intro h s bytes hs hl
    simp only [secret, h, if_false, hs, hl]

/-- The amended C7 on the example cluster: no name, a missing secret, a missing
entry with a plain key, and an entry that is there. -/
theorem secret_spec_witness :
    secret exampleRuntime exampleSolver { Name := "", Key := "" } "default" = (("", none), [])
      ∧ secret exampleRuntime exampleSolver { Name := "x", Key := "u" } "default"
          = (("", some "secret not found"), [Call.secretGet "default" "x"])
      ∧ "missing".data <:+:
          (keyNotFound exampleRuntime "missing" "default" "c").data
      ∧ secret exampleRuntime exampleSolver { Name := "c", Key := "u" } "default"
          = (("user", none), [Call.secretGet "default" "c"]) :=
  ⟨(secret_spec exampleRuntime exampleSolver { Name := "", Key := "" } "default").1 rfl,
    (secret_spec exampleRuntime exampleSolver { Name := "x", Key := "u" } "default").2.1
      (by decide) "secret not found" rfl,
    ((secret_spec exampleRuntime exampleSolver { Name := "c", Key := "missing" } "default").2.2.1
      (by decide) { Data := [("u", "user"), ("p", "pass")] } rfl rfl).2.2.2.2.2 (by decide),
    (secret_spec exampleRuntime exampleSolver { Name := "c", Key := "u" } "default").2.2.2
      (by decide) { Data := [("u", "user"), ("p", "pass")] } "user" rfl rfl⟩

/-! ## The claims about `Present` and `CleanUp` -/

/-- The key of one token starts with the key of another, for the same prefix
and name, exactly when the one token starts with the other. -/
theorem hasPrefix_etcdKeyFor (pfx fqdn t1 t2 : String) :
    hasPrefix (etcdKeyFor pfx fqdn t2) (etcdKeyFor pfx fqdn t1) = true ↔ t1.data <+: t2.data := by
  rw [hasPrefix, List.isPrefixOf_iff_prefix, etcdKeyFor_data, etcdKeyFor_data,
    List.prefix_append_right_inj, List.prefix_append_right_inj, List.cons_prefix_cons]
  simp

/-- A successful `CleanUp` keeps the record of every token that does not start
with the token of the request. -/
theorem CleanUp_keeps_sibling (rt : Runtime) (c : corednsProviderSolver) (w : World)
    (ch : ChallengeRequest) (st : Store) (t2 : String) (hnp : ¬ ch.Key.data <+: t2.data)
    (hok : (CleanUp rt c w ch st).err = none) :
    (CleanUp rt c w ch st).store
        (etcdKeyFor (loadConfig rt ch.Config).1.CoreDNSPrefix ch.ResolvedFQDN t2)
      = st (etcdKeyFor (loadConfig rt ch.Config).1.CoreDNSPrefix ch.ResolvedFQDN t2) := by
  obtain ⟨_, _, hs⟩ := CleanUp_ok rt c w ch st hok
  rw [hs, Store.deletePrefix]
  have : ¬ hasPrefix (etcdKeyFor (loadConfig rt ch.Config).1.CoreDNSPrefix ch.ResolvedFQDN t2)
      (etcdKeyFor (loadConfig rt ch.Config).1.CoreDNSPrefix ch.ResolvedFQDN ch.Key) = true :=
    fun h => hnp ((hasPrefix_etcdKeyFor _ _ _ _).1 h)
  simp only [this, if_false]
  rfl

/-- The frame property at the tokens `tok123` (cleaned up) and `tok456` (kept). -/
theorem CleanUp_keeps_sibling_example :
    (CleanUp exampleRuntime exampleSolver exampleWorld (exampleRequest "tok123")
        (emptyStore.put "/dns/com/example/_acme-challenge/tok456" "v")).store
        "/dns/com/example/_acme-challenge/tok456"
      = some "v" :=
  CleanUp_keeps_sibling exampleRuntime exampleSolver exampleWorld (exampleRequest "tok123")
    (emptyStore.put "/dns/com/example/_acme-challenge/tok456" "v") "tok456" (by decide)
    (by decide)

/-- C3 fails on the code: with the records of the tokens `tok` and `tok123`
stored for one name, `CleanUp` for `tok` succeeds and removes the record of
`tok123` as well, since the key of `tok` is a prefix of the key of `tok123`. -/
theorem CleanUp_removes_longer_token :
    ("tok" : String) ≠ "tok123"
      ∧ (Present exampleRuntime exampleSolver exampleWorld (exampleRequest "tok")
          (Present exampleRuntime exampleSolver exampleWorld (exampleRequest "tok123")
            emptyStore).store).store
          (etcdKeyFor "/dns/" "_acme-challenge.example.com" "tok123")
        = some "\x7b\"text\":\"tok123\",\"ttl\":60\x7d"
      ∧ (CleanUp exampleRuntime exampleSolver exampleWorld (exampleRequest "tok")
          (Present exampleRuntime exampleSolver exampleWorld (exampleRequest "tok")
            (Present exampleRuntime exampleSolver exampleWorld (exampleRequest "tok123")
              emptyStore).store).store).err = none
      ∧ (CleanUp exampleRuntime exampleSolver exampleWorld (exampleRequest "tok")
          (Present exampleRuntime exampleSolver exampleWorld (exampleRequest "tok")
            (Present exampleRuntime exampleSolver exampleWorld (exampleRequest "tok123")
              emptyStore).store).store).store
          (etcdKeyFor "/dns/" "_acme-challenge.example.com" "tok123")
        = none := by
  decide

/-- C8, as stated, fails: for the empty token the member `text` is left out
(`omitempty`), so the stored value is not the object with the two members. -/
theorem Present_empty_token_omits_text :
    (Present exampleRuntime exampleSolver exampleWorld (exampleRequest "") emptyStore).err = none
      ∧ (Present exampleRuntime exampleSolver exampleWorld (exampleRequest "") emptyStore).store
          (etcdKeyFor "/dns/" "_acme-challenge.example.com" "")
        = some "\x7b\"ttl\":60\x7d"
      ∧ (Present exampleRuntime exampleSolver exampleWorld (exampleRequest "") emptyStore).store
          (etcdKeyFor "/dns/" "_acme-challenge.example.com" "")
        ≠ some (encodeObject [("text", JValue.str ""), ("ttl", JValue.num 60)]) := by
  decide

/-- C8, amended: a successful `Present` for a non-empty token stores, at the
key `etcdKeyFor(cfg.CoreDNSPrefix, fqdn, token)` of the validated configuration,
the JSON object with the members `text` (the token) and `ttl` (60), and changes
no other key; for the prefix `/dns/`, the name `_acme-challenge.example.com` and
the token `tok123` this is the key `/dns/com/example/_acme-challenge/tok123`
with the value `{"text":"tok123","ttl":60}`. -/
theorem Present_stores_record (rt : Runtime) (c : corednsProviderSolver) (w : World)
    (ch : ChallengeRequest) (st : Store) (hkey : ch.Key ≠ "")
    (hok : (Present rt c w ch st).err = none) :
    (loadConfig rt ch.Config).2 = none
      ∧ validateConfig (loadConfig rt ch.Config).1 = none
      ∧ (Present rt c w ch st).store
          (etcdKeyFor (loadConfig rt ch.Config).1.CoreDNSPrefix ch.ResolvedFQDN ch.Key)
        = some (encodeObject [("text", JValue.str ch.Key), ("ttl", JValue.num 60)])
      ∧ (∀ k, k ≠ etcdKeyFor (loadConfig rt ch.Config).1.CoreDNSPrefix ch.ResolvedFQDN ch.Key →
          (Present rt c w ch st).store k = st k)
      ∧ ((loadConfig rt ch.Config).1.CoreDNSPrefix = "/dns/" →
          ch.ResolvedFQDN = "_acme-challenge.example.com" → ch.Key = "tok123" →
          (Present rt c w ch st).store "/dns/com/example/_acme-challenge/tok123"
            = some "\x7b\"text\":\"tok123\",\"ttl\":60\x7d") := by
  obtain ⟨h1, h2, hs⟩ := Present_ok rt c w ch st hok
  have hm : Marshal { Text := ch.Key, TTL := 60 % 2 ^ 32 }
      = encodeObject [("text", JValue.str ch.Key), ("ttl", JValue.num 60)] := by
    simp [Marshal, TXTRecord.members, hkey]
  refine ⟨h1, h2, ?_, ?_, ?_⟩
  · rw [hs, hm]
    simp only [Store.put, if_true]
  · intro k hk
    rw [hs]
    simp only [Store.put, hk, if_false]
  · intro hp hf ht
    have hk : etcdKeyFor "/dns/" "_acme-challenge.example.com" "tok123"
        = "/dns/com/example/_acme-challenge/tok123" := by decide
    have hv : encodeObject [("text", JValue.str "tok123"), ("ttl", JValue.num 60)]
        = "\x7b\"text\":\"tok123\",\"ttl\":60\x7d" := by decide
    rw [hs, hm, hp, hf, ht, hk, hv]
    simp only [Store.put, if_true]

/-- The amended C8 on the end-to-end scenario. -/
theorem Present_stores_record_witness :
    (exampleRequest "tok123").Key ≠ ""
      ∧ (Present exampleRuntime exampleSolver exampleWorld (exampleRequest "tok123")
          emptyStore).err = none
      ∧ (Present exampleRuntime exampleSolver exampleWorld (exampleRequest "tok123")
          emptyStore).store "/dns/com/example/_acme-challenge/tok123"
        = some "\x7b\"text\":\"tok123\",\"ttl\":60\x7d" :=
  ⟨by decide, by decide,
    (Present_stores_record exampleRuntime exampleSolver exampleWorld (exampleRequest "tok123")
      emptyStore (by decide) (by decide)).2.2.2.2 rfl rfl rfl⟩

/-- C9: a second successful `Present` with the same request leaves etcd as the
first did, and so does a second successful `CleanUp`; after a successful
`CleanUp` the same call on the keys already removed succeeds again and changes
nothing. -/
theorem Present_CleanUp_idempotent (rt : Runtime) (c1 c2 : corednsProviderSolver)
    (w1 w2 : World) (ch : ChallengeRequest) (st : Store) :
    ((Present rt c1 w1 ch st).err = none →
        (Present rt c2 w2 ch (Present rt c1 w1 ch st).store).err = none →
        (Present rt c2 w2 ch (Present rt c1 w1 ch st).store).store
          = (Present rt c1 w1 ch st).store)
      ∧ ((CleanUp rt c1 w1 ch st).err = none →
        (CleanUp rt c2 w2 ch (CleanUp rt c1 w1 ch st).store).err = none →
        (CleanUp rt c2 w2 ch (CleanUp rt c1 w1 ch st).store).store
          = (CleanUp rt c1 w1 ch st).store)
      ∧ ((CleanUp rt c1 w1 ch st).err = none →
        (CleanUp rt c1 w1 ch (CleanUp rt c1 w1 ch st).store).err = none
          ∧ (CleanUp rt c1 w1 ch (CleanUp rt c1 w1 ch st).store).store
            = (CleanUp rt c1 w1 ch st).store) := by
  have hc : ∀ (c : corednsProviderSolver) (w : World),
      (CleanUp rt c1 w1 ch st).err = none →
      (CleanUp rt c w ch (CleanUp rt c1 w1 ch st).store).err = none →
      (CleanUp rt c w ch (CleanUp rt c1 w1 ch st).store).store
        = (CleanUp rt c1 w1 ch st).store := by
    intro c w h1 h2
    obtain ⟨_, _, hs2⟩ := CleanUp_ok rt c w ch _ h2
    obtain ⟨_, _, hs1⟩ := CleanUp_ok rt c1 w1 ch st h1
    rw [hs2, hs1, deletePrefix_deletePrefix]
  refine ⟨?_, hc c2 w2, ?_⟩
  · intro h1 h2
    obtain ⟨_, _, hs2⟩ := Present_ok rt c2 w2 ch _ h2
    obtain ⟨_, _, hs1⟩ := Present_ok rt c1 w1 ch st h1
    rw [hs2, hs1, put_put]
  · intro h1
    have h2 : (CleanUp rt c1 w1 ch (CleanUp rt c1 w1 ch st).store).err = none := by
      rw [CleanUp_err_store, h1]
    exact ⟨h2, hc c1 w1 h1 h2⟩

/-- C9 on the end-to-end scenario, `CleanUp` starting from the stored record. -/
theorem Present_CleanUp_idempotent_witness :
    (Present exampleRuntime exampleSolver exampleWorld (exampleRequest "tok123")
        (Present exampleRuntime exampleSolver exampleWorld (exampleRequest "tok123")
          emptyStore).store).store
      = (Present exampleRuntime exampleSolver exampleWorld (exampleRequest "tok123")
          emptyStore).store
    ∧ (CleanUp exampleRuntime exampleSolver exampleWorld (exampleRequest "tok123")
        (CleanUp exampleRuntime exampleSolver exampleWorld (exampleRequest "tok123")
          (emptyStore.put "/dns/com/example/_acme-challenge/tok123" "v")).store).store
      = (CleanUp exampleRuntime exampleSolver exampleWorld (exampleRequest "tok123")
          (emptyStore.put "/dns/com/example/_acme-challenge/tok123" "v")).store
    ∧ (CleanUp exampleRuntime exampleSolver exampleWorld (exampleRequest "tok123")
        (CleanUp exampleRuntime exampleSolver exampleWorld (exampleRequest "tok123")
          (emptyStore.put "/dns/com/example/_acme-challenge/tok123" "v")).store).err = none :=
  ⟨(Present_CleanUp_idempotent exampleRuntime exampleSolver exampleSolver exampleWorld
      exampleWorld (exampleRequest "tok123") emptyStore).1 (by decide) (by decide),
    (Present_CleanUp_idempotent exampleRuntime exampleSolver exampleSolver exampleWorld
      exampleWorld (exampleRequest "tok123")
      (emptyStore.put "/dns/com/example/_acme-challenge/tok123" "v")).2.1 (by decide) (by decide),
    ((Present_CleanUp_idempotent exampleRuntime exampleSolver exampleSolver exampleWorld
      exampleWorld (exampleRequest "tok123")
      (emptyStore.put "/dns/com/example/_acme-challenge/tok123" "v")).2.2 (by decide)).1⟩

/-- C10: when the decoded configuration is rejected by `validateConfig`, both
`Present` and `CleanUp` return that very error, make no call (no secret lookup,
no connection, no put, no delete) and leave etcd as it was; an absent
configuration decodes to the zero value without error, and both operations then
return the error about `CoreDNSPrefix`. -/
theorem config_error_fails_fast (rt : Runtime) (c : corednsProviderSolver) (w : World)
    (ch : ChallengeRequest) (st : Store) :
    (∀ e, (loadConfig rt ch.Config).2 = none →
        validateConfig (loadConfig rt ch.Config).1 = some e →
        ((Present rt c w ch st).err = some e ∧ (Present rt c w ch st).calls = []
            ∧ (Present rt c w ch st).store = st)
          ∧ ((CleanUp rt c w ch st).err = some e ∧ (CleanUp rt c w ch st).calls = []
            ∧ (CleanUp rt c w ch st).store = st))
      ∧ loadConfig rt none = (zeroConfig, none)
      ∧ (ch.Config = none →
        (Present rt c w ch st).err = some "no `CoreDNSPrefix` provided"
          ∧ (CleanUp rt c w ch st).err = some "no `CoreDNSPrefix` provided") := by
  have main : ∀ e, (loadConfig rt ch.Config).2 = none →
      validateConfig (loadConfig rt ch.Config).1 = some e →
      ((Present rt c w ch st).err = some e ∧ (Present rt c w ch st).calls = []
          ∧ (Present rt c w ch st).store = st)
        ∧ ((CleanUp rt c w ch st).err = some e ∧ (CleanUp rt c w ch st).calls = []
          ∧ (CleanUp rt c w ch st).store = st) := by
    intro e h1 h2
    rcases hl : loadConfig rt ch.Config with ⟨cfg, err⟩
    rw [hl] at h1 h2
    simp only at h1 h2
    subst h1
    simp only [Present, CleanUp, hl, h2, and_self]
  refine ⟨main, rfl, ?_⟩
  intro hn
  have hz : loadConfig rt ch.Config = (zeroConfig, none) := by rw [hn]; rfl
  have := main "no `CoreDNSPrefix` provided" (by rw [hz]) (by rw [hz]; rfl)
  exact ⟨this.1.1, this.2.1⟩

/-- C10 on a request without configuration. -/
theorem config_error_fails_fast_witness :
    (Present exampleRuntime exampleSolver exampleWorld
        { ResolvedFQDN := "_acme-challenge.example.com", Key := "tok123",
          ResourceNamespace := "default", Config := none } emptyStore).err
      = some "no `CoreDNSPrefix` provided"
    ∧ (CleanUp exampleRuntime exampleSolver exampleWorld
        { ResolvedFQDN := "_acme-challenge.example.com", Key := "tok123",
          ResourceNamespace := "default", Config := none } emptyStore).calls = [] :=
  ⟨((config_error_fails_fast exampleRuntime exampleSolver exampleWorld
      { ResolvedFQDN := "_acme-challenge.example.com", Key := "tok123",
        ResourceNamespace := "default", Config := none } emptyStore).2.2 rfl).1,
    ((config_error_fails_fast exampleRuntime exampleSolver exampleWorld
      { ResolvedFQDN := "_acme-challenge.example.com", Key := "tok123",
        ResourceNamespace := "default", Config := none } emptyStore).1
      "no `CoreDNSPrefix` provided" rfl rfl).2.2.1⟩

end CoreDNS
